import Mathlib

/-
  Verification of the slogr logging-handler adapter (github.com/ralch/slogr).

  This file shallowly embeds the package-slogr variant of the handler
  (src/unnamed/part_001, lines 925-1512: Handler.Handle and its helper
  functions, the attribute constructors Name/Label/Request/Response/
  Operation*/Error), the Entry serializer (src/unnamed/part_003:
  Entry.MarshalJSON, LevelVar.Level), and the storage-level behaviour of
  Handler.WithAttrs / Handler.clone, and proves or refutes the frozen
  claims about them.

  Modelling conventions:
  * Go machine integers are modelled as Int; where a conversion wraps
    (int32(x)) the wrap is explicit.
  * Fallible Go code returns Option; a Go panic is modelled by the
    GoResult.panicked constructor.
  * Go maps are modelled as association lists with Go assignment
    semantics: writing an existing key replaces its value in place,
    writing a new key appends it.  Go map iteration order is
    unspecified; no claim below depends on ordering, only on membership
    and on the final key/value pairs.
  * float64 values are carried as opaque bit patterns (Nat); the code
    under verification never computes with floats, it only moves them.
  * OS facilities (DNS lookup via net.LookupHost, program-counter
    resolution via runtime.CallersFrames) are parameters of the model
    (the Env structure).
-/

namespace Slogr

/-- Result of running a piece of Go code that can panic. -/
inductive GoResult (α : Type) where
  | ok (a : α)
  | panicked
deriving Inhabited

/-- Go map assignment on an association list: replace the value of an
existing key in place, otherwise append the new binding. -/
def upsert {α : Type} (l : List (String × α)) (k : String) (v : α) :
    List (String × α) :=
  if l.any (fun p => p.1 = k) then
    l.map (fun p => if p.1 = k then (k, v) else p)
  else
    l ++ [(k, v)]

/-- Build a Go map from a list of writes, performed in order. -/
def goMapOf {α : Type} (l : List (String × α)) : List (String × α) :=
  l.foldl (fun m p => upsert m p.1 p.2) []

/-- Keys of an association list. -/
def keysOf {α : Type} (l : List (String × α)) : List String :=
  l.map Prod.fst

/-! ### Bytes, hex and UTF-8

net/url escaping operates on the UTF-8 bytes of a string, so the model
encodes strings to bytes explicitly (standard UTF-8, as Lean strings are
valid unicode just like Go strings reaching url.PathEscape). -/

/-- Upper-case hex digits, as used by net/url escape. -/
def hexUpperDigit (n : Nat) : Char :=
  if n < 10 then Char.ofNat ('0'.toNat + n)
  else Char.ofNat ('A'.toNat + (n - 10))

/-- Standard UTF-8 encoding of one character. -/
def utf8Bytes (c : Char) : List Nat :=
  let n := c.toNat
  if n < 0x80 then [n]
  else if n < 0x800 then [0xC0 ||| (n >>> 6), 0x80 ||| (n &&& 0x3F)]
  else if n < 0x10000 then
    [0xE0 ||| (n >>> 12), 0x80 ||| ((n >>> 6) &&& 0x3F), 0x80 ||| (n &&& 0x3F)]
  else
    [0xF0 ||| (n >>> 18), 0x80 ||| ((n >>> 12) &&& 0x3F),
     0x80 ||| ((n >>> 6) &&& 0x3F), 0x80 ||| (n &&& 0x3F)]

/-- UTF-8 bytes of a whole string. -/
def strBytes (s : String) : List Nat :=
  s.data.flatMap utf8Bytes

/-! ### net/url escaping (url.PathEscape, URL.EscapedPath, host escaping)

Faithful translation of net/url shouldEscape and escape for the three
encoding modes the handler exercises. -/

/-- The encoding modes of net/url used by this code base. -/
inductive EscapeMode where
  | path
  | pathSegment
  | host
deriving DecidableEq

/-- net/url shouldEscape, restricted to the three modes above. -/
def shouldEscape (c : Nat) (mode : EscapeMode) : Bool :=
  if ('a'.toNat ≤ c ∧ c ≤ 'z'.toNat) ∨ ('A'.toNat ≤ c ∧ c ≤ 'Z'.toNat) ∨
     ('0'.toNat ≤ c ∧ c ≤ '9'.toNat) then
    false
  else if mode = .host ∧
      (c ∈ (['!', '$', '&', '\'', '(', ')', '*', '+', ',', ';', '=', ':',
             '[', ']', '<', '>', '"'].map Char.toNat)) then
    false
  else if c ∈ (['-', '_', '.', '~'].map Char.toNat) then
    false
  else if c ∈ (['$', '&', '+', ',', '/', ':', ';', '=', '?', '@'].map Char.toNat) then
    match mode with
    | .path => c = '?'.toNat
    | .pathSegment =>
        c = '/'.toNat ∨ c = ';'.toNat ∨ c = ','.toNat ∨ c = '?'.toNat
    | .host => true
  else
    true

/-- net/url escape: per byte, either the raw byte (always ASCII when kept)
or a percent-escape with upper-case hex. -/
def goEscape (s : String) (mode : EscapeMode) : String :=
  ((strBytes s).map (fun b =>
      if shouldEscape b mode then
        String.mk ['%', hexUpperDigit (b / 16), hexUpperDigit (b % 16)]
      else
        String.mk [Char.ofNat b])).foldl (· ++ ·) ""

/-- url.PathEscape: escape so the string can appear in a path segment. -/
def goPathEscape (s : String) : String := goEscape s .pathSegment

/-- URL.EscapedPath for a URL whose RawPath is unset: escape the path in
path mode. -/
def goEscapedPath (s : String) : String := goEscape s .path

/-! ### net.SplitHostPort -/

/-- Split a list at the last occurrence of a character; returns the parts
before and after it when present. -/
def splitAtLast (c : Char) (l : List Char) : Option (List Char × List Char) :=
  match l with
  | [] => none
  | x :: xs =>
    match splitAtLast c xs with
    | some (a, b) => some (x :: a, b)
    | none => if x = c then some ([], xs) else none

/-- net.SplitHostPort: host and port of an address of the form host:port or
a bracketed form like a6:7. On any malformed input Go returns an error,
modelled as none. -/
def goSplitHostPort (s : String) : Option (String × String) :=
  match splitAtLast ':' s.data with
  | none => none
  | some (hostPart, portPart) =>
    if portPart.contains '[' ∨ portPart.contains ']' then none
    else
      match hostPart with
      | '[' :: inner =>
        -- bracketed host: the last colon must directly follow the bracket
        match splitAtLast ']' inner with
        | some (h, rest) =>
            if rest = [] then some (String.mk h, String.mk portPart) else none
        | none => none
      | _ =>
        if hostPart.contains ':' ∨ hostPart.contains '[' ∨ hostPart.contains ']' then
          none
        else
          some (String.mk hostPart, String.mk portPart)

/-! ### path.Clean and filepath.Join (unix separator)

filepath.Clean on unix follows the four documented rewrite rules:
collapse multiple separators, drop "." elements, resolve ".." against a
preceding non-".." element, and drop ".." elements at the root.  The
model applies those rules with an explicit element stack. -/

/-- Split a character list at every occurrence of a separator
(semantics of strings.Split with a one-character separator). -/
def splitChar (sep : Char) : List Char → List (List Char)
  | [] => [[]]
  | c :: rest =>
    if c = sep then [] :: splitChar sep rest
    else
      match splitChar sep rest with
      | h :: t => (c :: h) :: t
      | [] => [[c]]

/-- Whether a string starts with a slash. -/
def headIsSlash (s : String) : Bool :=
  match s.data with
  | c :: _ => c = '/'
  | [] => false

/-- Split a path into its slash-separated elements. -/
def pathSegmentsOf (s : String) : List String :=
  (splitChar '/' s.data).map String.mk

/-- Apply the Clean rules to the element list; the result stack is in
reverse order. -/
def cleanStack (rooted : Bool) : List String → List String → List String
  | acc, [] => acc
  | acc, seg :: rest =>
    if seg = "" ∨ seg = "." then cleanStack rooted acc rest
    else if seg = ".." then
      match acc with
      | [] => cleanStack rooted (if rooted then [] else [".."]) rest
      | top :: below =>
        if top = ".." then cleanStack rooted (seg :: acc) rest
        else cleanStack rooted below rest
    else cleanStack rooted (seg :: acc) rest

/-- filepath.Clean with the unix separator. -/
def goPathClean (p : String) : String :=
  if p = "" then "."
  else
    let rooted := headIsSlash p
    let stack := cleanStack rooted [] (pathSegmentsOf p)
    let body := String.intercalate "/" stack.reverse
    let out := (if rooted then "/" else "") ++ body
    if out = "" then "." else out

/-- filepath.Join: join from the first non-empty element on with "/" and
Clean the result; all elements empty gives the empty string. -/
def goFilepathJoin (elems : List String) : String :=
  match elems.dropWhile (fun e => e = "") with
  | [] => ""
  | rest => goPathClean (String.intercalate "/" rest)

/-! ### url.URL.String

The handler only ever manipulates the Scheme, Host and Path fields of a
request URL (part_001 lines 1385-1394), so the URL model carries exactly
those; Opaque, User, RawPath, RawQuery, Fragment, OmitHost and ForceQuery
stay at their zero values, and URL.String is translated for that shape. -/

/-- The fields of net/url.URL that this code base reads or writes. -/
structure GoURL where
  scheme : String := ""
  host : String := ""
  path : String := ""
deriving DecidableEq, Repr

/-- url.URL.String for a URL with only Scheme, Host and Path set. -/
def urlString (u : GoURL) : String :=
  let s1 := if u.scheme ≠ "" then u.scheme ++ ":" else ""
  let auth :=
    if u.scheme ≠ "" ∨ u.host ≠ "" then
      if u.host ≠ "" ∨ u.path ≠ "" then "//" ++ goEscape u.host .host else ""
    else ""
  let p := goEscapedPath u.path
  let sep := if p ≠ "" ∧ ¬ headIsSlash p ∧ u.host ≠ "" then "/" else ""
  let dotSlash :=
    if s1 ++ auth ++ sep = "" ∧ ((p.data.takeWhile (fun c => c ≠ '/')).contains ':') then
      "./"
    else ""
  s1 ++ auth ++ sep ++ dotSlash ++ p

/-! ### Go time and protobuf well-known types -/

/-- Seconds between year 1 and 1970, from the time package. -/
def unixToInternal : Int := 62135596800

/-- time.Time, reduced to the fields that determine reflect.IsZero and
serialization for the values this code produces: wall carries the
nanosecond part, ext the internal seconds (both zero for the zero Time;
the monotonic clock bit and location are nil/absent in every value the
handler builds, matching time.Unix(..).UTC()). -/
structure GoTime where
  wall : Nat := 0
  ext : Int := 0
deriving DecidableEq, Repr

/-- timestamppb.Timestamp. -/
structure Timestamp where
  seconds : Int := 0
  nanos : Int := 0
deriving DecidableEq, Repr

/-- durationpb.Duration. -/
structure DurationPB where
  seconds : Int := 0
  nanos : Int := 0
deriving DecidableEq, Repr

/-- (x *timestamppb.Timestamp).AsTime(): time.Unix(x.GetSeconds(),
x.GetNanos()).UTC(), where a nil pointer reads as zero seconds and nanos.
time.Unix first normalises nanos into range zero to 1e9. -/
def tsAsTime (t : Option Timestamp) : GoTime :=
  let s := (t.map Timestamp.seconds).getD 0
  let n := (t.map Timestamp.nanos).getD 0
  let sec := s + (n / 1000000000 - if n % 1000000000 < 0 then 1 else 0)
  let nsec := n % 1000000000 + (if n % 1000000000 < 0 then 1000000000 else 0)
  { wall := nsec.toNat, ext := sec + unixToInternal }

/-- ltype.HttpRequest (google.golang.org/genproto logging/type). -/
structure HttpRequest where
  requestMethod : String := ""
  requestUrl : String := ""
  requestSize : Int := 0
  status : Int := 0
  responseSize : Int := 0
  userAgent : String := ""
  remoteIp : String := ""
  referer : String := ""
  cacheHit : Bool := false
  cacheValidatedWithOriginServer : Bool := false
  cacheLookup : Bool := false
  cacheFillBytes : Int := 0
  serverIp : String := ""
  latency : Option DurationPB := none
  protocol : String := ""
deriving DecidableEq, Repr

/-- loggingpb.LogEntryOperation. -/
structure LogEntryOperation where
  id : String := ""
  producer : String := ""
  first : Bool := false
  last : Bool := false
deriving DecidableEq, Repr

/-- loggingpb.LogEntrySourceLocation. -/
structure SourceLocation where
  file : String := ""
  line : Int := 0
  function : String := ""
deriving DecidableEq, Repr

/-- ltype.LogSeverity, restricted to the values the handler emits. -/
inductive Severity where
  | default
  | debug
  | info
  | warning
  | error
deriving DecidableEq, Repr

/-- LogSeverity.String(). -/
def severityString : Severity → String
  | .default => "DEFAULT"
  | .debug => "DEBUG"
  | .info => "INFO"
  | .warning => "WARNING"
  | .error => "ERROR"

/-- Go int32 conversion (wrap modulo 2^32 into the signed range). -/
def toInt32 (x : Int) : Int :=
  (x + 2 ^ 31) % 2 ^ 32 - 2 ^ 31

/-! ### slog values and attributes

slog.Value is a closed tagged union (see spec section 9 and the
golang.org/x/exp/slog package the source imports).  KindAny payloads are
modelled by the runtime types the handler's type assertions test for,
plus an opaque constructor for every other type.  A KindLogValuer value
is embedded as the Value its single evaluation yields. -/

/-- The runtime value behind a KindAny slog.Value, as far as the
handler's type assertions can distinguish it. -/
inductive AnyVal where
  | httpReq (r : HttpRequest)
  | opInfo (o : LogEntryOperation)
  | other (tag : String)

/-- slog.Value. -/
inductive Value where
  | str (s : String)
  | int (i : Int)
  | uint (n : Nat)
  | float (bits : Nat)
  | bool (b : Bool)
  | duration (ns : Int)
  | time (t : GoTime)
  | anyv (a : AnyVal)
  | group (items : List (String × Value))
  | logValuer (inner : Value)

/-- slog.Attr: a key paired with a Value. -/
abbrev Attr := String × Value

/-! ### slog.Value.String()

Value.String() renders a string value as-is and formats the other kinds;
int, uint and bool use strconv and match Lean's toString.  The remaining
renderings (float64 via strconv 'g', duration and time via their String
methods, groups and any-values via fmt) are abstracted behind total
placeholder functions: no claim below depends on their output, and the
one theorem that touches non-string leaves (the label-flattening
refinement) uses the same renderer on both sides of the comparison. -/

/-- Abstracted strconv.FormatFloat of an opaque bit pattern. -/
def floatRender (bits : Nat) : String := "float64#" ++ toString bits

/-- Abstracted time.Duration.String(). -/
def durationRender (ns : Int) : String := "duration#" ++ toString ns

/-- Abstracted time.Time.String(). -/
def timeRender (t : GoTime) : String :=
  "time#" ++ toString t.wall ++ "#" ++ toString t.ext

/-- Abstracted fmt rendering of a KindAny payload. -/
def anyRender : AnyVal → String
  | .httpReq _ => "anyval#httpRequest"
  | .opInfo _ => "anyval#operation"
  | .other tag => "anyval#" ++ tag

/-- slog.Value.String(). -/
def goValueString : Value → String
  | .str s => s
  | .int i => toString i
  | .uint n => toString n
  | .float bits => floatRender bits
  | .bool b => if b then "true" else "false"
  | .duration ns => durationRender ns
  | .time t => timeRender t
  | .anyv a => anyRender a
  | .group _ => "group#"
  | .logValuer _ => "logvaluer#"

/-! ### Reserved keys (part_001 lines 946-953) -/

def NameKey : String := "name"
def ErrorKey : String := "error"
def LabelKey : String := "labels"
def RequestKey : String := "request"
def ResponseKey : String := "response"
def OperationKey : String := "operation"

/-- The vendor message key injected into JSON payloads (line 1128). -/
def MessageKey : String := "logging.googleapis.com/message"

/-- r.Attrs with an early-stopping callback that looks for one key:
the value of the first attribute with that key. -/
def findFirst? (attrs : List Attr) (key : String) : Option Value :=
  match attrs with
  | [] => none
  | (k, v) :: rest => if k = key then some v else findFirst? rest key

/-! ### Handler.flatten (lines 1282-1299) -/

mutual
/-- Handler.flatten on one attribute: a group fans out into its items
with the child key appended after a dot, anything else is a leaf. -/
def flattenAttr : Attr → List Attr
  | (k, v) => flattenVal k v

/-- flatten of a value under a given key. -/
def flattenVal (k : String) : Value → List Attr
  | .group items => flattenItems k items
  | v => [(k, v)]

/-- flatten over the items of a group value. -/
def flattenItems (k : String) : List (String × Value) → List Attr
  | [] => []
  | (ik, iv) :: rest => flattenVal (k ++ "." ++ ik) iv ++ flattenItems k rest
end

/-! ### Handler.value (lines 1249-1280): attribute value coercion -/

/-- The interface-typed tree Handler.value produces: Go primitives,
map of string to interface for groups, or the raw any payload. -/
inductive GoAny where
  | str (s : String)
  | int (i : Int)
  | uint (n : Nat)
  | float (bits : Nat)
  | bool (b : Bool)
  | duration (ns : Int)
  | time (t : GoTime)
  | anyv (a : AnyVal)
  | mapSI (m : List (String × GoAny))

mutual
/-- Handler.value: the kind switch.  KindLogValuer evaluates the lazy
value once and recurses; KindGroup coerces each child into a map with Go
assignment semantics. -/
def hValue : Value → GoAny
  | .str s => .str s
  | .int i => .int i
  | .uint n => .uint n
  | .float b => .float b
  | .bool b => .bool b
  | .duration ns => .duration ns
  | .time t => .time t
  | .anyv a => .anyv a
  | .logValuer inner => hValue inner
  | .group items => .mapSI (goMapOf (hValueItems items))

/-- The in-order writes Handler.value performs for a group's children. -/
def hValueItems : List (String × Value) → List (String × GoAny)
  | [] => []
  | (k, v) :: rest => (k, hValue v) :: hValueItems rest
end

/-! ### structpb.NewStruct / NewValue (protobuf v1.30)

structpb.NewValue accepts nil, bool, the integer and float types,
strings, byte slices, maps of string to interface and slices of
interface; every other runtime type (notably time.Duration, time.Time
and arbitrary structs) returns an error, which Handler.payload turns
into a panic (line 1132).  Success keeps the tree unchanged in this
model; the float64 widening NewValue applies to numbers is not modelled
because no claim inspects numeric precision. -/

mutual
/-- Whether structpb.NewValue accepts this value. -/
def structpbOk : GoAny → Bool
  | .str _ => true
  | .int _ => true
  | .uint _ => true
  | .float _ => true
  | .bool _ => true
  | .duration _ => false
  | .time _ => false
  | .anyv _ => false
  | .mapSI m => structpbOkList m

/-- structpb acceptance over the entries of a map. -/
def structpbOkList : List (String × GoAny) → Bool
  | [] => true
  | (_, v) :: rest => structpbOk v && structpbOkList rest
end

/-- structpb.NewStruct: some on success, none on error. -/
def structpbNewStruct (m : List (String × GoAny)) :
    Option (List (String × GoAny)) :=
  if structpbOkList m then some m else none

/-! ### The payload oneof of loggingpb.LogEntry -/

/-- LogEntry's payload oneof: text, JSON (a structpb.Struct, here the
checked coerced map), or a protobuf Any payload (never built by this
package; carried opaquely for Entry generality). -/
inductive Payload where
  | text (s : String)
  | json (st : List (String × GoAny))
  | protoPayload (typeUrl : String)

/-! ### Handler helper functions (part_001, slogr variant) -/

/-- The type assertion attr.Value.Any().(*ltype.HttpRequest): succeeds
exactly on a KindAny value holding an HttpRequest pointer. -/
def asHttpRequest : Value → Option HttpRequest
  | .anyv (.httpReq r) => some r
  | _ => none

/-- The type assertion attr.Value.Any().(*loggingpb.LogEntryOperation). -/
def asOperation : Value → Option LogEntryOperation
  | .anyv (.opInfo o) => some o
  | _ => none

/-- Handler.severity (lines 1069-1082); slog levels are Debug -4,
Info 0, Warn 4, Error 8. -/
def hSeverity (level : Int) : Severity :=
  if level = -4 then .debug
  else if level = 0 then .info
  else if level = 4 then .warning
  else if level = 8 then .error
  else .default

/-- Handler.path (lines 1240-1247): filepath.Join of projects, the
project id, and the given keys. -/
def hPath (project : String) (keys : List String) : String :=
  goFilepathJoin ("projects" :: project :: keys)

/-- Handler.name (lines 1084-1099): only with a configured project, the
first name attribute's stringified value, path-escaped, joined under
projects/(project)/logs. -/
def hName (project : String) (attrs : List Attr) : String :=
  if project = "" then ""
  else
    match findFirst? attrs NameKey with
    | some v => hPath project ["logs", goPathEscape (goValueString v)]
    | none => ""

/-- Handler.label (lines 1220-1238): the first labels attribute's group
items, flattened, stringified into a map.  Value.Group() panics when the
first labels attribute is not a group value. -/
def hLabel (attrs : List Attr) : GoResult (List (String × String)) :=
  match findFirst? attrs LabelKey with
  | none => .ok []
  | some (.group items) =>
    .ok (items.foldl
      (fun kv item =>
        (flattenAttr item).foldl
          (fun kv l => upsert kv l.1 (goValueString l.2)) kv)
      [])
  | some _ => .panicked

/-- Handler.request (lines 1155-1191): take the first request attribute
(assertion failure leaves a nil pointer), then merge the first response
attribute's Status and ResponseSize into it.  The merge dereferences
both pointers, so it panics when either assertion failed. -/
def hRequest (attrs : List Attr) : GoResult (Option HttpRequest) :=
  let firstReq := findFirst? attrs RequestKey
  let request : Option HttpRequest :=
    match firstReq with
    | some v => asHttpRequest v
    | none => some {}
  match findFirst? attrs ResponseKey with
  | some v =>
    match request, asHttpRequest v with
    | some rq, some rs =>
        .ok (some { rq with status := rs.status, responseSize := rs.responseSize })
    | _, _ => .panicked
  | none =>
    match firstReq with
    | some _ => .ok request
    | none => .ok none

/-- Handler.operation (lines 1193-1206): the first operation attribute's
asserted value; a failed assertion silently leaves nil. -/
def hOperation (attrs : List Attr) : Option LogEntryOperation :=
  match findFirst? attrs OperationKey with
  | some v => asOperation v
  | none => none

/-- Handler.payload (lines 1101-1138): coerce every attribute whose key
is not one of the five skipped reserved keys (note: the error key is not
skipped), fall back to a text payload when no such attribute exists,
otherwise inject the vendor message key and build a structpb.Struct,
panicking on a structpb error. -/
def payloadProps (attrs : List Attr) : List (String × GoAny) :=
  attrs.foldl
    (fun ps p =>
      if p.1 = NameKey ∨ p.1 = LabelKey ∨ p.1 = RequestKey ∨
         p.1 = ResponseKey ∨ p.1 = OperationKey then ps
      else upsert ps p.1 (hValue p.2))
    []

/-- Handler.payload, producing the oneof value Handle stores. -/
def hPayload (attrs : List Attr) (message : String) : GoResult Payload :=
  if (payloadProps attrs).length = 0 then .ok (.text message)
  else
    match structpbNewStruct (upsert (payloadProps attrs) MessageKey (.str message)) with
    | some st => .ok (.json st)
    | none => .panicked

/-! ### Environment, record, handler and entry -/

/-- The OS facilities Handle and the Request constructor consult:
net.LookupHost (first address on success, none on error; the net
contract guarantees a successful lookup is non-empty) and the
runtime.CallersFrames resolution of a program counter. -/
structure Env where
  dns : String → Option String
  frame : Nat → SourceLocation

/-- The opencensus-free span context Handle reads from the call context
(trace.SpanFromContext / span.SpanContext(), lines 1208-1218). -/
structure SpanCtx where
  traceID : String := ""
  spanID : String := ""
  sampled : Bool := false
  valid : Bool := false
deriving DecidableEq, Repr

/-- slog.Record: message, level, time (as its Unix seconds/nanoseconds
pair, which is what timestamppb.New reads), program counter, attribute
sequence. -/
structure Record where
  message : String := ""
  level : Int := 0
  timeSec : Int := 0
  timeNsec : Int := 0
  pc : Nat := 0
  attrs : List Attr := []

/-- The Leveler interface: either a fixed slog.Level or the string-based
LevelVar of part_003 (its Level method is modelled below). -/
inductive Leveler where
  | level (l : Int)
  | levelVar (s : String)

/-- Handler (lines 980-988): leveler, writer (an opaque token), project,
source and indent toggles, and the accumulated baggage attributes. -/
structure HandlerM where
  leveler : Leveler := .level 0
  writer : Nat := 0
  project : String := ""
  source : Bool := false
  indent : Bool := false
  attr : List Attr := []

/-- Handler.location (lines 1140-1153): resolve the record's program
counter only when source capture is on. -/
def hLocation (env : Env) (source : Bool) (pc : Nat) : Option SourceLocation :=
  if source then some (env.frame pc) else none

/-- Handler.trace (lines 1208-1218): only with a configured project and
a valid span context. -/
def hTrace (project : String) (span : Option SpanCtx) : Option SpanCtx :=
  if project ≠ "" then
    match span with
    | some s => if s.valid then some s else none
    | none => none
  else none

/-- The Entry type of part_003 (a renaming of loggingpb.LogEntry),
restricted to the fields the package reads or writes.  Option models
proto pointer fields (none is the nil pointer) and the labels map (none
is a nil map, some an allocated one, possibly empty). -/
structure Entry where
  logName : String := ""
  severity : Severity := .default
  timestamp : Option Timestamp := none
  payload : Option Payload := none
  labels : Option (List (String × String)) := none
  httpRequest : Option HttpRequest := none
  operation : Option LogEntryOperation := none
  sourceLocation : Option SourceLocation := none
  trace : String := ""
  spanId : String := ""
  traceSampled : Bool := false
  insertId : String := ""

/-- The entry Handle assembles (lines 1024-1045) once the three
panic-capable helpers have produced their results ls, req and pl; the
remaining helpers are pure and are invoked here.  The trace fields stay
zero unless Handler.trace yields a span. -/
def assembleEntry (env : Env) (h : HandlerM) (span : Option SpanCtx)
    (r : Record) (ls : List (String × String)) (req : Option HttpRequest)
    (pl : Payload) : Entry :=
  let attrs := r.attrs ++ h.attr
  { logName := hName h.project attrs
    severity := hSeverity r.level
    timestamp := some { seconds := r.timeSec, nanos := r.timeNsec }
    payload := some pl
    labels := some ls
    httpRequest := req
    operation := hOperation attrs
    sourceLocation := hLocation env h.source r.pc
    trace :=
      match hTrace h.project span with
      | some s => hPath h.project ["traces", s.traceID]
      | none => ""
    spanId :=
      match hTrace h.project span with
      | some s => s.spanID
      | none => ""
    traceSampled :=
      match hTrace h.project span with
      | some s => s.sampled
      | none => false
    insertId := "" }

/-- Handler.Handle (lines 1009-1054) up to serialization: clone the
record and append the baggage (Handler.record, lines 1312-1316), run the
helpers in source order (labels, then request, then payload are the ones
that can panic), assemble the entry.  The final json encode/write is
studied separately through marshalEntry. -/
def handleM (env : Env) (h : HandlerM) (span : Option SpanCtx) (r : Record) :
    GoResult Entry :=
  match hLabel (r.attrs ++ h.attr) with
  | .panicked => .panicked
  | .ok ls =>
    match hRequest (r.attrs ++ h.attr) with
    | .panicked => .panicked
    | .ok req =>
      match hPayload (r.attrs ++ h.attr) r.message with
      | .panicked => .panicked
      | .ok pl => .ok (assembleEntry env h span r ls req pl)

/-! ### Attribute constructors (part_001 lines 1318-1512) -/

/-- slog.String. -/
def slogStr (k v : String) : Attr := (k, .str v)

/-- slog.Group with attribute arguments. -/
def slogGroupA (k : String) (attrs : List Attr) : Attr := (k, .group attrs)

/-- Name (lines 1324-1331): path-escapes its argument and stores it as a
string value under the name key. -/
def NameAttr (value : String) : Attr :=
  (NameKey, .str (goPathEscape value))

/-- Label (lines 1339-1341): a group of the given attributes under the
labels key (the variadic any arguments are modelled for the
slog.Attr-argument case the claims exercise). -/
def LabelAttr (attrs : List Attr) : Attr :=
  (LabelKey, .group attrs)

/-- The http.Request fields the Request constructor reads.  Header keys
are stored in canonical form; Header.Get returns the first value or the
empty string.  The URL pointer is taken to be non-nil (a nil URL makes
the Go constructor itself dereference nil, outside every claim). -/
structure GoHttpRequest where
  method : String := ""
  proto : String := ""
  host : String := ""
  remoteAddr : String := ""
  contentLength : Int := 0
  headers : List (String × String) := []
  tls : Bool := false
  url : GoURL := {}

/-- http.Header.Get. -/
def headerGet (hs : List (String × String)) (k : String) : String :=
  match hs.find? (fun p => p.1 = k) with
  | some p => p.2
  | none => ""

/-- The scheme closure of Request (lines 1352-1362). -/
def reqScheme (r : GoHttpRequest) : String :=
  let v := headerGet r.headers "X-Forwarded-Proto"
  if v ≠ "" then v else if r.tls then "https" else "http"

/-- The host closure of Request (lines 1364-1370). -/
def reqHost (r : GoHttpRequest) : String :=
  let v := headerGet r.headers "X-Forwarded-Host"
  if v ≠ "" then v else r.host

/-- The remote closure of Request (lines 1372-1383). -/
def reqRemote (r : GoHttpRequest) : String :=
  let v := headerGet r.headers "X-Forwarded-For"
  if v ≠ "" then v
  else
    match goSplitHostPort r.remoteAddr with
    | some (ip, _) => ip
    | none => r.remoteAddr

/-- The ltype.HttpRequest value Request builds (lines 1349-1405): the
cloned request's Host, RemoteAddr and URL scheme/host are rewritten by
the closures, Latency is a zero durationpb, and a successful
net.LookupHost of the host overwrites RemoteIp with the first address. -/
def requestValue (env : Env) (r : GoHttpRequest) : HttpRequest :=
  let u : GoURL := { scheme := reqScheme r, host := reqHost r, path := r.url.path }
  let base : HttpRequest :=
    { protocol := r.proto
      requestMethod := r.method
      requestSize := r.contentLength
      requestUrl := urlString u
      remoteIp := reqRemote r
      referer := headerGet r.headers "Referer"
      userAgent := headerGet r.headers "User-Agent"
      latency := some {} }
  match env.dns (reqHost r) with
  | some addr => { base with remoteIp := addr }
  | none => base

/-- Request (lines 1343-1411). -/
def RequestAttr (env : Env) (r : GoHttpRequest) : Attr :=
  (RequestKey, .anyv (.httpReq (requestValue env r)))

/-- The http.Response fields the Response constructor reads. -/
structure GoHttpResponse where
  statusCode : Int := 0
  contentLength : Int := 0

/-- The ltype.HttpRequest value Response builds (lines 1419-1429): only
ResponseSize and Status (the latter through an int32 conversion). -/
def responseValue (r : GoHttpResponse) : HttpRequest :=
  { responseSize := r.contentLength, status := toInt32 r.statusCode }

/-- Response (lines 1413-1429). -/
def ResponseAttr (r : GoHttpResponse) : Attr :=
  (ResponseKey, .anyv (.httpReq (responseValue r)))

/-- OperationStart (lines 1458-1472). -/
def OperationStartAttr (id producer : String) : Attr :=
  (OperationKey, .anyv (.opInfo { id, producer, first := true, last := false }))

/-- OperationContinue (lines 1474-1488). -/
def OperationContinueAttr (id producer : String) : Attr :=
  (OperationKey, .anyv (.opInfo { id, producer, first := false, last := false }))

/-- OperationEnd (lines 1490-1504). -/
def OperationEndAttr (id producer : String) : Attr :=
  (OperationKey, .anyv (.opInfo { id, producer, first := false, last := true }))

/-- Error (lines 1506-1512): the error's message as a string value under
the error key. -/
def ErrorAttr (message : String) : Attr :=
  (ErrorKey, .str message)

/-! ### Entry.MarshalJSON (part_003 lines 118-164)

MarshalJSON builds a map of attributes through the local set closure:
set(k, v) drops the pair when reflect.ValueOf(v) is invalid (a nil
interface) or IsZero (the Go zero value of v's runtime type: empty
string, false, zero time.Time struct, nil pointer, nil map — note a
non-nil empty map is NOT the zero value of a map type), re-marshals
proto messages through protojson into a generic JSON object, and stores
everything else as-is for the final json.Marshal.  The model produces
the key/value pairs in set-call order (json.Marshal then sorts map keys,
which no claim depends on). -/

/-- The JSON values appearing in the marshalled entry. -/
inductive Json where
  | str (s : String)
  | num (i : Int)
  | numF (bits : Nat)
  | bool (b : Bool)
  | timeV (t : GoTime)
  | obj (fields : List (String × Json))
  | null

/-- protojson rendering of a durationpb.Duration: seconds with a 3, 6 or
9 digit fraction and an s suffix. -/
def durationPBJson (d : DurationPB) : String :=
  let n := d.nanos.natAbs
  let frac :=
    if n = 0 then ""
    else
      let pad := List.replicate (9 - (toString n).length) '0' ++ (toString n).data
      if n % 1000000 = 0 then "." ++ String.mk (pad.take 3)
      else if n % 1000 = 0 then "." ++ String.mk (pad.take 6)
      else "." ++ String.mk pad
  (if d.seconds < 0 ∨ d.nanos < 0 then "-" else "") ++
    toString d.seconds.natAbs ++ frac ++ "s"

/-- Emit a protojson field only when the value is not the proto default
(proto3 implicit presence). -/
def pjStr (k v : String) : List (String × Json) :=
  if v = "" then [] else [(k, .str v)]

/-- protojson renders int64 fields as JSON strings. -/
def pjInt64 (k : String) (v : Int) : List (String × Json) :=
  if v = 0 then [] else [(k, .str (toString v))]

/-- protojson renders int32 fields as JSON numbers. -/
def pjInt32 (k : String) (v : Int) : List (String × Json) :=
  if v = 0 then [] else [(k, .num v)]

/-- protojson bool field. -/
def pjBool (k : String) (v : Bool) : List (String × Json) :=
  if v then [(k, .bool true)] else []

/-- protojson of ltype.HttpRequest (fields in field-number order, zero
fields omitted; a message-typed field is present whenever its pointer is
non-nil). -/
def httpRequestJson (r : HttpRequest) : Json :=
  .obj (pjStr "requestMethod" r.requestMethod ++
        pjStr "requestUrl" r.requestUrl ++
        pjInt64 "requestSize" r.requestSize ++
        pjInt32 "status" r.status ++
        pjInt64 "responseSize" r.responseSize ++
        pjStr "userAgent" r.userAgent ++
        pjStr "remoteIp" r.remoteIp ++
        pjStr "referer" r.referer ++
        pjBool "cacheHit" r.cacheHit ++
        pjBool "cacheValidatedWithOriginServer" r.cacheValidatedWithOriginServer ++
        pjBool "cacheLookup" r.cacheLookup ++
        pjInt64 "cacheFillBytes" r.cacheFillBytes ++
        pjStr "serverIp" r.serverIp ++
        (match r.latency with
         | some d => [("latency", .str (durationPBJson d))]
         | none => []) ++
        pjStr "protocol" r.protocol)

/-- protojson of loggingpb.LogEntryOperation. -/
def operationJson (o : LogEntryOperation) : Json :=
  .obj (pjStr "id" o.id ++ pjStr "producer" o.producer ++
        pjBool "first" o.first ++ pjBool "last" o.last)

/-- protojson of loggingpb.LogEntrySourceLocation. -/
def sourceLocationJson (l : SourceLocation) : Json :=
  .obj (pjStr "file" l.file ++ pjInt64 "line" l.line ++
        pjStr "function" l.function)

mutual
/-- The JSON rendering of a structpb value (reached only through values
structpb.NewStruct accepted; the kinds it rejects render as null and are
unreachable from entries this package builds). -/
def structValJson : GoAny → Json
  | .str s => .str s
  | .int i => .num i
  | .uint n => .num n
  | .float bits => .numF bits
  | .bool b => .bool b
  | .mapSI m => .obj (structObjJson m)
  | _ => .null

/-- structpb rendering over map entries. -/
def structObjJson : List (String × GoAny) → List (String × Json)
  | [] => []
  | (k, v) :: rest => (k, structValJson v) :: structObjJson rest
end

/-- Entry.GetPayload (part_003 lines 93-105) composed with set's checks:
the value stored under the message key, or none when the whole pair is
dropped (nil payload gives an invalid reflect value; an empty text
payload is the string zero value; the proto payloads pass through
protojson, an Any rendered opaquely as its type url object). -/
def payloadField (p : Option Payload) : Option Json :=
  match p with
  | none => none
  | some (.text s) => if s = "" then none else some (.str s)
  | some (.json st) => some (.obj (structObjJson st))
  | some (.protoPayload typeUrl) => some (.obj [("@type", .str typeUrl)])

/-- set of a plain string value: dropped when empty. -/
def strField (s : String) : Option Json :=
  if s = "" then none else some (.str s)

/-- set of the converted timestamp: x.Timestamp.AsTime() is a time.Time
VALUE, so the zero test sees the converted time, not the pointer; a nil
timestamp converts to the unix epoch, which is not the zero time.Time. -/
def timeField (t : GoTime) : Option Json :=
  if t = ({} : GoTime) then none else some (.timeV t)

/-- set of the trace-sampled bool: dropped when false. -/
def boolField (b : Bool) : Option Json :=
  if b then some (.bool true) else none

/-- The set calls of MarshalJSON in source order (lines 151-161), each
paired with the value it would store (none when set drops the pair). -/
def marshalFields (x : Entry) : List (String × Option Json) :=
  [("severity", strField (severityString x.severity)),
   ("httpRequest", x.httpRequest.map httpRequestJson),
   ("timestamp", timeField (tsAsTime x.timestamp)),
   ("message", payloadField x.payload),
   ("logging.googleapis.com/insertId", strField x.insertId),
   ("logging.googleapis.com/labels",
     x.labels.map (fun l => .obj (l.map (fun p => (p.1, .str p.2))))),
   ("logging.googleapis.com/operation", x.operation.map operationJson),
   ("logging.googleapis.com/sourceLocation",
     x.sourceLocation.map sourceLocationJson),
   ("logging.googleapis.com/spanId", strField x.spanId),
   ("logging.googleapis.com/trace", strField x.trace),
   ("logging.googleapis.com/trace_sampled", boolField x.traceSampled)]

/-- Entry.MarshalJSON as the key/value pairs of the object it writes. -/
def marshalEntry (x : Entry) : List (String × Json) :=
  (marshalFields x).filterMap (fun p => p.2.map (fun j => (p.1, j)))

/-! ### Handler.Enabled (lines 1004-1007) and LevelVar (part_003) -/

/-! LevelVar.Level (part_003 lines 59-68) discards the error of
slog.Level.UnmarshalText, which parses an optional DEBUG, INFO, WARN or
ERROR name (upper-cased first) followed by an optional signed offset, and
assigns the level only after every check passed; on error the level
variable keeps its zero value (0 = info).  strings.ToUpper is modelled
for ASCII (Char.toUpper); the unicode special cases cannot make an
otherwise-invalid ASCII name valid for the claims below. -/

/-- strings.ToUpper, ASCII. -/
def toUpperA (s : String) : String := String.mk (s.data.map Char.toUpper)

/-- strconv.Atoi on the sign-prefixed offset slice: an optional sign,
then at least one digit, all digits, within int64. -/
def goAtoi (s : String) : Option Int :=
  let (neg, ds) :=
    match s.data with
    | '+' :: rest => (false, rest)
    | '-' :: rest => (true, rest)
    | rest => (false, rest)
  if ds = [] ∨ ¬ ds.all (fun c => '0' ≤ c ∧ c ≤ '9') then none
  else
    let n : Nat := ds.foldl (fun acc c => acc * 10 + (c.toNat - '0'.toNat)) 0
    let v : Int := if neg then -(n : Int) else (n : Int)
    if v < -(2 ^ 63) ∨ 2 ^ 63 - 1 < v then none else some v

/-- The four level names slog.Level.parse recognises. -/
def levelName (s : String) : Option Int :=
  if s = "DEBUG" then some (-4)
  else if s = "INFO" then some 0
  else if s = "WARN" then some 4
  else if s = "ERROR" then some 8
  else none

/-- strings.IndexAny(s, "+-") as a split: the text before the first
sign character and the slice starting at it. -/
def splitAtSign (s : String) : Option (String × String) :=
  let pre := s.data.takeWhile (fun c => c ≠ '+' ∧ c ≠ '-')
  let rest := s.data.drop pre.length
  if rest = [] then none else some (String.mk pre, String.mk rest)

/-- Signed 64-bit wrap-around for the final level + offset addition. -/
def wrap64 (x : Int) : Int :=
  (x + 2 ^ 63) % 2 ^ 64 - 2 ^ 63

/-- slog.Level.parse: some level on success, none on any error. -/
def levelParse (s : String) : Option Int :=
  match splitAtSign s with
  | none => levelName (toUpperA s)
  | some (name, signRest) =>
    match goAtoi signRest, levelName (toUpperA name) with
    | some off, some base => some (wrap64 (base + off))
    | _, _ => none

/-- LevelVar.Level: unmarshal, discarding the error; the zero level
(info) survives any failed parse. -/
def levelVarLevel (s : String) : Int :=
  match levelParse s with
  | some l => l
  | none => 0

/-- Leveler.Level(). -/
def levelerLevel : Leveler → Int
  | .level l => l
  | .levelVar s => levelVarLevel s

/-- Handler.Enabled (lines 1004-1007): level >= h.leveler.Level(). -/
def hEnabled (h : HandlerM) (level : Int) : Bool :=
  levelerLevel h.leveler ≤ level

/-! ### Storage-level model of WithAttrs and clone (lines 1056-1061,
1301-1310)

Handler.clone copies the struct, which copies the attr slice HEADER
(pointer, length, capacity) without copying the backing array;
WithAttrs then appends to the copied header.  Following Go's append:
when the new length fits the capacity the elements are written in place
into the shared backing array; otherwise a new array is allocated with
the runtime's grown capacity (doubling below the 256 threshold; the
malloc size-class round-up is not modelled — it can only enlarge
capacities further, and for 48-byte slog.Attr elements the capacities in
the scenario below are exact).  The heap is a list of backing arrays,
each stored at its full capacity. -/

/-- The zero slog.Attr used to pad allocated capacity (never readable
through any slice length in the scenarios proved below). -/
def zeroAttr : Attr := ("", .anyv (.other "nil"))

/-- A slice header: backing array id, length, capacity. -/
structure SliceH where
  arrId : Nat := 0
  len : Nat := 0
  cap : Nat := 0
deriving DecidableEq, Repr

/-- The heap: backing arrays by id (array 0 is the empty array behind
the nil slice). -/
abbrev Heap := List (List Attr)

/-- The observable contents of a slice. -/
def readSlice (heap : Heap) (s : SliceH) : List Attr :=
  (heap.getD s.arrId []).take s.len

/-- The growth loop of runtime.growslice for capacities at or above the
threshold (unreachable in the scenario below, modelled for totality). -/
def growDeep (newLen : Nat) (c : Nat) : Nat :=
  if h : 0 < c ∧ c < newLen then growDeep newLen (c + (c + 768) / 4) else c
termination_by newLen - c
decreasing_by omega

/-- runtime.growslice's capacity choice. -/
def growCap (oldCap newLen : Nat) : Nat :=
  let doublecap := oldCap + oldCap
  if newLen > doublecap then newLen
  else if oldCap < 256 then doublecap
  else growDeep newLen oldCap

/-- Overwrite array elements starting at a position (the in-place part
of append; the array is long enough whenever the capacity check held). -/
def overwriteFrom (arr : List Attr) (pos : Nat) (xs : List Attr) : List Attr :=
  arr.take pos ++ xs ++ arr.drop (pos + xs.length)

/-- Go append on the modelled heap. -/
def goAppend (heap : Heap) (s : SliceH) (xs : List Attr) : Heap × SliceH :=
  let newLen := s.len + xs.length
  if newLen ≤ s.cap then
    (heap.set s.arrId (overwriteFrom (heap.getD s.arrId []) s.len xs),
     { s with len := newLen })
  else
    let newCap := growCap s.cap newLen
    let newArr := readSlice heap s ++ xs ++
      List.replicate (newCap - newLen) zeroAttr
    (heap ++ [newArr], { arrId := heap.length, len := newLen, cap := newCap })

/-- A handler whose baggage field is the slice header it holds at the
storage level. -/
structure HandlerS where
  leveler : Leveler := .level 0
  writer : Nat := 0
  project : String := ""
  source : Bool := false
  indent : Bool := false
  attr : SliceH := {}

/-- Handler.clone (lines 1301-1310): a field-for-field copy; the attr
slice header is copied, the backing array is shared. -/
def cloneS (h : HandlerS) : HandlerS :=
  { leveler := h.leveler
    writer := h.writer
    project := h.project
    source := h.source
    indent := h.indent
    attr := h.attr }

/-- Handler.WithAttrs (lines 1056-1061): clone, then append the new
attributes to the clone's baggage slice. -/
def withAttrsS (heap : Heap) (h : HandlerS) (attrs : List Attr) :
    Heap × HandlerS :=
  let c := cloneS h
  let (heap', s') := goAppend heap c.attr attrs
  (heap', { c with attr := s' })

/-! ### Spec-side definition for the label-flattening claim -/

mutual
/-- Modelled from the spec (section 4.2): depth-first traversal in which
a leaf attribute contributes its dotted path mapped to its stringified
value and a group attribute recurses with the child key appended after a
dot.  Stringification is the same scalar rule the code uses. -/
def flattenSpec (path : String) : Value → List (String × String)
  | .group items => flattenSpecItems path items
  | v => [(path, goValueString v)]

/-- The spec traversal over a group's children, in order. -/
def flattenSpecItems (path : String) : List (String × Value) → List (String × String)
  | [] => []
  | (ck, cv) :: rest =>
      flattenSpec (path ++ "." ++ ck) cv ++ flattenSpecItems path rest
end

/-! ### Concrete fixtures used by witnesses and counterexamples -/

/-- An environment with no DNS answers and a trivial frame resolver. -/
def env0 : Env := { dns := fun _ => none, frame := fun _ => {} }

/-- A default handler: no project, no baggage, level zero. -/
def hBase : HandlerM := {}

/-- A handler configured with project proj1. -/
def hProj : HandlerM := { project := "proj1" }

/-- A GET request for path /x over HTTP/1.1. -/
def req0 : GoHttpRequest :=
  { method := "GET", proto := "HTTP/1.1", host := "example.com",
    url := { path := "/x" } }

/-- A response with status 200 and size 42. -/
def resp0 : GoHttpResponse := { statusCode := 200, contentLength := 42 }

/-- A record carrying the Request and Response attributes of req0/resp0. -/
def rec1 : Record :=
  { message := "m", attrs := [RequestAttr env0 req0, ResponseAttr resp0] }

/-- The entry Handle assembles for rec1. -/
def entry1 : Entry :=
  assembleEntry env0 hBase none rec1 []
    (some { requestValue env0 req0 with status := 200, responseSize := 42 })
    (.text "m")

/-- A record with no attributes at all. -/
def recEmpty : Record := { message := "hi" }

/-- The entry Handle assembles for recEmpty. -/
def entryEmpty : Entry := assembleEntry env0 hBase none recEmpty [] none (.text "hi")

/-- A record carrying Label(Group(a, Group(b, String(c, v)))). -/
def recLab : Record :=
  { message := "m",
    attrs := [LabelAttr [slogGroupA "a" [slogGroupA "b" [slogStr "c" "v"]]]] }

/-- The entry Handle assembles for recLab. -/
def entryLab : Entry :=
  assembleEntry env0 hBase none recLab [("a.b.c", "v")] none (.text "m")

/-- A record whose only attribute is Error(boom). -/
def recErr : Record := { message := "hi", attrs := [ErrorAttr "boom"] }

/-- The entry Handle assembles for recErr: a JSON payload, not text. -/
def entryErr : Entry :=
  assembleEntry env0 hBase none recErr [] none
    (.json [("error", .str "boom"), (MessageKey, .str "hi")])

/-- A record with one duration-valued attribute (structpb rejects it). -/
def recDur : Record := { message := "hi", attrs := [("k", .duration 5)] }

/-- A record with one ordinary string attribute. -/
def recKV : Record := { message := "hi", attrs := [("k", .str "v")] }

/-- The entry Handle assembles for recKV. -/
def entryKV : Entry :=
  assembleEntry env0 hBase none recKV [] none
    (.json [("k", .str "v"), (MessageKey, .str "hi")])

/-- A record carrying Name(my/log). -/
def recName : Record := { message := "hi", attrs := [NameAttr "my/log"] }

/-- The entry Handle assembles for recName under project proj1. -/
def entryName : Entry := assembleEntry env0 hProj none recName [] none (.text "hi")

/-- A record whose response attribute holds a string, not an HttpRequest. -/
def recBadResp : Record := { message := "hi", attrs := [(ResponseKey, .str "oops")] }

/-- A record with a malformed request attribute and a well-formed
response attribute. -/
def recBadReqResp : Record :=
  { message := "hi", attrs := [(RequestKey, .str "zap"), ResponseAttr resp0] }

/-- A record whose operation attribute holds a string. -/
def recBadOp : Record := { message := "hi", attrs := [(OperationKey, .str "x")] }

/-- The entry Handle assembles for recBadOp: the malformed operation
attribute is silently dropped. -/
def entryBadOp : Entry := assembleEntry env0 hBase none recBadOp [] none (.text "hi")

/-- An entry with an allocated but empty labels map and a nil timestamp,
as every Handle call without a labels attribute produces. -/
def entryCx : Entry := { labels := some [] }

/-- An entry whose timestamp converts to the zero time.Time (the proto
timestamp for year 1), with every other field zero. -/
def entryW : Entry := { timestamp := some { seconds := -62135596800, nanos := 0 } }

/-! The WithAttrs storage scenario: three single-attribute derivations
leave a slice of length 3 and capacity 4, then two sibling derivations
from that handler append in place into the shared backing array. -/

def attrA : Attr := slogStr "k1" "v1"
def attrB : Attr := slogStr "k2" "v2"
def attrC : Attr := slogStr "k3" "v3"
def attrD : Attr := slogStr "k4" "v4"
def attrE : Attr := slogStr "k5" "v5"

/-- The initial heap: only the empty array behind the nil slice. -/
def heap0 : Heap := [[]]

/-- The base handler at the storage level. -/
def hS0 : HandlerS := {}

def step1 : Heap × HandlerS := withAttrsS heap0 hS0 [attrA]
def step2 : Heap × HandlerS := withAttrsS step1.1 step1.2 [attrB]
def step3 : Heap × HandlerS := withAttrsS step2.1 step2.2 [attrC]

/-- First child derived from step3's handler. -/
def child1 : Heap × HandlerS := withAttrsS step3.1 step3.2 [attrD]

/-- Second child derived from the same parent, after child1. -/
def child2 : Heap × HandlerS := withAttrsS child1.1 step3.2 [attrE]

/-! ### Theorems -/

/-- Characterization of a successful Handle call: each panic-capable
helper succeeded and the entry is the assembled one. -/
theorem handleM_ok_elim {env : Env} {h : HandlerM} {span : Option SpanCtx}
    {r : Record} {e : Entry} (hok : handleM env h span r = .ok e) :
    ∃ ls req pl,
      hLabel (r.attrs ++ h.attr) = .ok ls ∧
      hRequest (r.attrs ++ h.attr) = .ok req ∧
      hPayload (r.attrs ++ h.attr) r.message = .ok pl ∧
      e = assembleEntry env h span r ls req pl := by
  unfold handleM at hok
  cases hl : hLabel (r.attrs ++ h.attr) with
  | panicked => simp [hl] at hok
  | ok ls =>
    simp only [hl] at hok
    cases hr : hRequest (r.attrs ++ h.attr) with
    | panicked => simp [hr] at hok
    | ok req =>
      simp only [hr] at hok
      cases hp : hPayload (r.attrs ++ h.attr) r.message with
      | panicked => simp [hp] at hok
      | ok pl =>
        simp only [hp] at hok
        exact ⟨ls, req, pl, rfl, rfl, rfl, (GoResult.ok.inj hok).symm⟩

theorem assembleEntry_labels (env : Env) (h : HandlerM) (span : Option SpanCtx)
    (r : Record) (ls : List (String × String)) (req : Option HttpRequest)
    (pl : Payload) :
    (assembleEntry env h span r ls req pl).labels = some ls := rfl

theorem assembleEntry_httpRequest (env : Env) (h : HandlerM)
    (span : Option SpanCtx) (r : Record) (ls : List (String × String))
    (req : Option HttpRequest) (pl : Payload) :
    (assembleEntry env h span r ls req pl).httpRequest = req := rfl

theorem assembleEntry_payload (env : Env) (h : HandlerM) (span : Option SpanCtx)
    (r : Record) (ls : List (String × String)) (req : Option HttpRequest)
    (pl : Payload) :
    (assembleEntry env h span r ls req pl).payload = some pl := rfl

theorem assembleEntry_severity (env : Env) (h : HandlerM) (span : Option SpanCtx)
    (r : Record) (ls : List (String × String)) (req : Option HttpRequest)
    (pl : Payload) :
    (assembleEntry env h span r ls req pl).severity = hSeverity r.level := rfl

mutual
/-- The code's flatten, stringified, agrees with the spec's depth-first
dotted-path traversal on every value. -/
theorem flattenVal_refines (k : String) : ∀ v : Value,
    (flattenVal k v).map (fun a => (a.1, goValueString a.2)) = flattenSpec k v
  | .str s => by simp [flattenVal, flattenSpec]
  | .int i => by simp [flattenVal, flattenSpec]
  | .uint n => by simp [flattenVal, flattenSpec]
  | .float b => by simp [flattenVal, flattenSpec]
  | .bool b => by simp [flattenVal, flattenSpec]
  | .duration ns => by simp [flattenVal, flattenSpec]
  | .time t => by simp [flattenVal, flattenSpec]
  | .anyv a => by simp [flattenVal, flattenSpec]
  | .logValuer inner => by simp [flattenVal, flattenSpec]
  | .group items => by
      rw [show flattenVal k (.group items) = flattenItems k items from rfl,
          show flattenSpec k (.group items) = flattenSpecItems k items from rfl]
      exact flattenItems_refines k items

/-- The item-list case of the flatten refinement. -/
theorem flattenItems_refines (k : String) : ∀ items : List (String × Value),
    (flattenItems k items).map (fun a => (a.1, goValueString a.2)) =
      flattenSpecItems k items
  | [] => by simp [flattenItems, flattenSpecItems]
  | (ik, iv) :: rest => by
      rw [show flattenItems k ((ik, iv) :: rest) =
            flattenVal (k ++ "." ++ ik) iv ++ flattenItems k rest from rfl,
          show flattenSpecItems k ((ik, iv) :: rest) =
            flattenSpec (k ++ "." ++ ik) iv ++ flattenSpecItems k rest from rfl,
          List.map_append, flattenVal_refines (k ++ "." ++ ik) iv,
          flattenItems_refines k rest]
end

/-- C3: a Handle call whose record carries the labels attribute
Label(Group(a, Group(b, String(c, v)))) yields an entry whose label
mapping is exactly a.b.c mapped to v; in general the code's flattening
is the spec's depth-first traversal: a leaf contributes its dotted path
mapped to its stringified value, a group recurses with the child key
appended after a dot. -/
theorem C3_label_flattening :
    (∀ (env : Env) (h : HandlerM) (span : Option SpanCtx) (r : Record) (e : Entry),
      findFirst? (r.attrs ++ h.attr) LabelKey =
        some (LabelAttr [slogGroupA "a" [slogGroupA "b" [slogStr "c" "v"]]]).2 →
      handleM env h span r = .ok e →
      e.labels = some [("a.b.c", "v")]) ∧
    (∀ (k : String) (v : Value),
      (flattenVal k v).map (fun a => (a.1, goValueString a.2)) = flattenSpec k v) := by
  constructor
  · intro env h span r e hfind hok
    obtain ⟨ls, req, pl, hl, _, _, he⟩ := handleM_ok_elim hok
    have hcomp : hLabel (r.attrs ++ h.attr) = .ok [("a.b.c", "v")] := by
      unfold hLabel
      rw [hfind]
      rfl
    rw [hcomp] at hl
    have := GoResult.ok.inj hl
    rw [he, assembleEntry_labels, ← this]
  · exact flattenVal_refines

/-- C3 witness: the concrete Handle call on recLab. -/
theorem C3_label_flattening_witness :
    handleM env0 hBase none recLab = .ok entryLab ∧
    entryLab.labels = some [("a.b.c", "v")] :=
  ⟨rfl, C3_label_flattening.1 env0 hBase none recLab entryLab rfl rfl⟩

/-- C8: the severity mapping is total: debug maps to DEBUG, info to
INFO, warn to WARNING, error to ERROR, and any other level to DEFAULT;
every assembled entry's severity is this function of the record level. -/
theorem C8_severity_total :
    hSeverity (-4) = .debug ∧ hSeverity 0 = .info ∧ hSeverity 4 = .warning ∧
    hSeverity 8 = .error ∧
    (∀ l : Int, l ≠ -4 → l ≠ 0 → l ≠ 4 → l ≠ 8 → hSeverity l = .default) ∧
    (∀ l : Int,
      hSeverity l = .debug ∨ hSeverity l = .info ∨ hSeverity l = .warning ∨
      hSeverity l = .error ∨ hSeverity l = .default) ∧
    (∀ (env : Env) (h : HandlerM) (span : Option SpanCtx) (r : Record) (e : Entry),
      handleM env h span r = .ok e → e.severity = hSeverity r.level) := by
  refine ⟨rfl, rfl, rfl, rfl, ?_, ?_, ?_⟩
  · intro l h1 h2 h3 h4
    simp [hSeverity, h1, h2, h3, h4]
  · intro l
    unfold hSeverity
    split
    · exact Or.inl rfl
    split
    · exact Or.inr (Or.inl rfl)
    split
    · exact Or.inr (Or.inr (Or.inl rfl))
    split
    · exact Or.inr (Or.inr (Or.inr (Or.inl rfl)))
    · exact Or.inr (Or.inr (Or.inr (Or.inr rfl)))
  · intro env h span r e hok
    obtain ⟨ls, req, pl, _, _, _, he⟩ := handleM_ok_elim hok
    rw [he, assembleEntry_severity]

/-- C8 witness: levels strictly between, below and above the recognized
bands map to DEFAULT, and a concrete Handle call carries the mapped
severity. -/
theorem C8_severity_total_witness :
    hSeverity 2 = .default ∧ hSeverity (-8) = .default ∧
    hSeverity 16 = .default ∧ entryEmpty.severity = hSeverity 0 :=
  ⟨C8_severity_total.2.2.2.2.1 2 (by decide) (by decide) (by decide) (by decide),
   C8_severity_total.2.2.2.2.1 (-8) (by decide) (by decide) (by decide) (by decide),
   C8_severity_total.2.2.2.2.1 16 (by decide) (by decide) (by decide) (by decide),
   C8_severity_total.2.2.2.2.2.2 env0 hBase none recEmpty entryEmpty rfl⟩

/-- C9: Enabled is the pure comparison: it returns true exactly when the
queried level is at least the configured minimum. -/
theorem C9_enabled_iff :
    ∀ (h : HandlerM) (M L : Int), levelerLevel h.leveler = M →
      (hEnabled h L = true ↔ M ≤ L) := by
  intro h M L hM
  simp [hEnabled, hM]

/-- C9 witness: a handler at minimum level 0 accepts level 4 and rejects
level -4. -/
theorem C9_enabled_iff_witness :
    hEnabled { leveler := .level 0 } 4 = true ∧
    hEnabled { leveler := .level 0 } (-4) ≠ true :=
  ⟨(C9_enabled_iff { leveler := .level 0 } 0 4 rfl).mpr (by decide),
   fun hc => absurd ((C9_enabled_iff { leveler := .level 0 } 0 (-4) rfl).mp hc)
     (by decide)⟩

/-- C10: a string that does not parse as a level name makes
LevelVar.Level silently return the zero level, which is info: severity
maps it to INFO and Enabled compares against an info threshold. -/
theorem C10_levelvar_parse_error_info :
    ∀ s : String, levelParse s = none →
      levelVarLevel s = 0 ∧ hSeverity (levelVarLevel s) = .info ∧
      (∀ L : Int, hEnabled { leveler := .levelVar s } L = true ↔ 0 ≤ L) := by
  intro s hs
  have h0 : levelVarLevel s = 0 := by
    unfold levelVarLevel
    rw [hs]
  refine ⟨h0, ?_, ?_⟩
  · rw [h0]
    rfl
  · intro L
    simp [hEnabled, levelerLevel, h0]

/-- C10 witness: the invalid level string verbose. -/
theorem C10_levelvar_parse_error_info_witness :
    levelParse "verbose" = none ∧ levelVarLevel "verbose" = 0 ∧
    hEnabled { leveler := .levelVar "verbose" } 0 = true :=
  ⟨rfl,
   (C10_levelvar_parse_error_info "verbose" rfl).1,
   ((C10_levelvar_parse_error_info "verbose" rfl).2.2 0).mpr (by decide)⟩

/-- structpb.NewStruct returns its input unchanged on success. -/
theorem structpbNewStruct_some {m m' : List (String × GoAny)}
    (h : structpbNewStruct m = some m') : m' = m := by
  unfold structpbNewStruct at h
  split at h
  · exact (Option.some.inj h).symm
  · exact absurd h (by simp)

theorem requestValue_method (env : Env) (r : GoHttpRequest) :
    (requestValue env r).requestMethod = r.method := by
  unfold requestValue
  cases env.dns (reqHost r) <;> rfl

theorem requestValue_protocol (env : Env) (r : GoHttpRequest) :
    (requestValue env r).protocol = r.proto := by
  unfold requestValue
  cases env.dns (reqHost r) <;> rfl

theorem requestValue_url (env : Env) (r : GoHttpRequest) :
    (requestValue env r).requestUrl =
      urlString { scheme := reqScheme r, host := reqHost r, path := r.url.path } := by
  unfold requestValue
  cases env.dns (reqHost r) <;> rfl

/-- Every URL renders as some prefix followed by its escaped path. -/
theorem urlString_path_suffix (u : GoURL) :
    ∃ p, urlString u = p ++ goEscapedPath u.path :=
  ⟨_, rfl⟩

/-- C1: a Handle call whose record carries a Request attribute built
from a GET of /x over HTTP/1.1 and a Response attribute built from a
200-status, 42-byte response assembles exactly one merged
HttpRequestInfo: the request's value with only status and responseSize
overwritten (method GET, url ending in /x, status 200, responseSize 42,
no other field touched); a record with neither attribute leaves the
entry's HttpRequestInfo absent. -/
theorem C1_request_response_merge :
    (∀ (env : Env) (h : HandlerM) (span : Option SpanCtx) (r : Record) (e : Entry)
        (req : GoHttpRequest) (resp : GoHttpResponse),
      req.method = "GET" → req.url.path = "/x" → req.proto = "HTTP/1.1" →
      resp.statusCode = 200 → resp.contentLength = 42 →
      findFirst? (r.attrs ++ h.attr) RequestKey = some (RequestAttr env req).2 →
      findFirst? (r.attrs ++ h.attr) ResponseKey = some (ResponseAttr resp).2 →
      handleM env h span r = .ok e →
      e.httpRequest =
        some { requestValue env req with status := 200, responseSize := 42 } ∧
      (requestValue env req).requestMethod = "GET" ∧
      (requestValue env req).protocol = "HTTP/1.1" ∧
      (∃ p, (requestValue env req).requestUrl = p ++ "/x")) ∧
    (∀ (env : Env) (h : HandlerM) (span : Option SpanCtx) (r : Record) (e : Entry),
      findFirst? (r.attrs ++ h.attr) RequestKey = none →
      findFirst? (r.attrs ++ h.attr) ResponseKey = none →
      handleM env h span r = .ok e →
      e.httpRequest = none) := by
  constructor
  · intro env h span r e req resp hmethod hpath hproto hstatus hsize hfreq hfresp hok
    obtain ⟨ls, reqv, pl, _, hr, _, he⟩ := handleM_ok_elim hok
    have hs1 : (responseValue resp).status = 200 := by
      rw [show (responseValue resp).status = toInt32 resp.statusCode from rfl,
          hstatus]
      decide
    have hs2 : (responseValue resp).responseSize = 42 := by
      rw [show (responseValue resp).responseSize = resp.contentLength from rfl,
          hsize]
    have hcomp : hRequest (r.attrs ++ h.attr) =
        .ok (some { requestValue env req with
          status := (responseValue resp).status,
          responseSize := (responseValue resp).responseSize }) := by
      unfold hRequest
      rw [hfreq, hfresp]
      rfl
    rw [hs1, hs2] at hcomp
    rw [hcomp] at hr
    have hreqv := GoResult.ok.inj hr
    refine ⟨?_, ?_, ?_, ?_⟩
    · rw [he, assembleEntry_httpRequest, ← hreqv]
    · rw [requestValue_method, hmethod]
    · rw [requestValue_protocol, hproto]
    · rw [requestValue_url, hpath]
      have := urlString_path_suffix { scheme := reqScheme req, host := reqHost req, path := "/x" }
      rw [show goEscapedPath "/x" = "/x" from rfl] at this
      exact this
  · intro env h span r e hfreq hfresp hok
    obtain ⟨ls, reqv, pl, _, hr, _, he⟩ := handleM_ok_elim hok
    have hcomp : hRequest (r.attrs ++ h.attr) = .ok none := by
      unfold hRequest
      rw [hfreq, hfresp]
    rw [hcomp] at hr
    rw [he, assembleEntry_httpRequest, ← GoResult.ok.inj hr]

/-- C1 witness: the concrete Handle calls on rec1 and recEmpty. -/
theorem C1_request_response_merge_witness :
    (handleM env0 hBase none rec1 = .ok entry1 ∧
     entry1.httpRequest =
       some { requestValue env0 req0 with status := 200, responseSize := 42 } ∧
     (∃ p, (requestValue env0 req0).requestUrl = p ++ "/x")) ∧
    (handleM env0 hBase none recEmpty = .ok entryEmpty ∧
     entryEmpty.httpRequest = none) := by
  have h1 := C1_request_response_merge.1 env0 hBase none rec1 entry1 req0 resp0
    rfl rfl rfl rfl rfl rfl rfl rfl
  have h2 := C1_request_response_merge.2 env0 hBase none recEmpty entryEmpty
    rfl rfl rfl
  exact ⟨⟨rfl, h1.1, h1.2.2.2⟩, ⟨rfl, h2⟩⟩

/-- C2 counterexample: the record whose only attribute is Error(boom)
has zero non-reserved attributes by the spec's six-key reserved set, yet
Handle produces a JSON payload (the error key is not excluded by payload
assembly), not the text payload the claim requires; and the record with
one duration-valued attribute makes Handle panic instead of producing
the claimed JSON payload. -/
theorem C2_payload_counterexample :
    handleM env0 hBase none recErr = .ok entryErr ∧
    entryErr.payload = some (.json [("error", .str "boom"), (MessageKey, .str "hi")]) ∧
    entryErr.payload ≠ some (.text "hi") ∧
    handleM env0 hBase none recDur = .panicked := by
  refine ⟨rfl, rfl, ?_, rfl⟩
  intro hc
  rw [show entryErr.payload =
        some (.json [("error", .str "boom"), (MessageKey, .str "hi")]) from rfl] at hc
  exact Payload.noConfusion (Option.some.inj hc)

/-- C2 (amended): on every Handle call that produces an entry, exactly
one payload is set: the raw message as text when no attribute outside
the five keys skipped by payload assembly (name, labels, request,
response, operation — the error key is not skipped) is present,
otherwise a JSON payload holding every coerced such attribute plus the
injected vendor message key; and when such attributes exist but some
coerced value is not representable by structpb, Handle panics instead of
producing an entry. -/
theorem C2_payload_exclusive :
    (∀ (env : Env) (h : HandlerM) (span : Option SpanCtx) (r : Record) (e : Entry),
      handleM env h span r = .ok e →
      (payloadProps (r.attrs ++ h.attr) = [] → e.payload = some (.text r.message)) ∧
      (payloadProps (r.attrs ++ h.attr) ≠ [] →
        e.payload = some (.json
          (upsert (payloadProps (r.attrs ++ h.attr)) MessageKey (.str r.message))))) ∧
    (∀ (attrs : List Attr) (msg : String),
      payloadProps attrs ≠ [] →
      structpbOkList (upsert (payloadProps attrs) MessageKey (.str msg)) = false →
      hPayload attrs msg = .panicked) := by
  constructor
  · intro env h span r e hok
    obtain ⟨ls, req, pl, _, _, hp, he⟩ := handleM_ok_elim hok
    constructor
    · intro hempty
      have hcomp : hPayload (r.attrs ++ h.attr) r.message = .ok (.text r.message) := by
        unfold hPayload
        rw [hempty]
        rfl
      rw [hcomp] at hp
      rw [he, assembleEntry_payload, ← GoResult.ok.inj hp]
    · intro hne
      have hlen : (payloadProps (r.attrs ++ h.attr)).length ≠ 0 := by
        simpa [List.length_eq_zero] using hne
      unfold hPayload at hp
      rw [if_neg hlen] at hp
      cases hU : structpbNewStruct
          (upsert (payloadProps (r.attrs ++ h.attr)) MessageKey (.str r.message)) with
      | some st =>
        rw [hU] at hp
        rw [he, assembleEntry_payload, ← GoResult.ok.inj hp,
            structpbNewStruct_some hU]
      | none =>
        rw [hU] at hp
        exact absurd hp (by simp)
  · intro attrs msg hne hbad
    have hlen : (payloadProps attrs).length ≠ 0 := by
      simpa [List.length_eq_zero] using hne
    unfold hPayload
    rw [if_neg hlen,
        show structpbNewStruct (upsert (payloadProps attrs) MessageKey (.str msg)) = none by
          unfold structpbNewStruct; simp [hbad]]

/-- C2 witness: the Handle call on recKV takes the JSON branch with the
message key injected, the call on recEmpty takes the text branch, and
the duration attribute drives payload assembly into the panic branch. -/
theorem C2_payload_exclusive_witness :
    entryKV.payload = some (.json [("k", .str "v"), (MessageKey, .str "hi")]) ∧
    entryEmpty.payload = some (.text "hi") ∧
    hPayload [("k", .duration 5)] "hi" = .panicked := by
  refine ⟨?_, ?_, ?_⟩
  · have h := (C2_payload_exclusive.1 env0 hBase none recKV entryKV rfl).2
      (by rw [show payloadProps (recKV.attrs ++ hBase.attr) =
                [("k", GoAny.str "v")] from rfl]; simp)
    rw [h]
    rfl
  · exact (C2_payload_exclusive.1 env0 hBase none recEmpty entryEmpty rfl).1 rfl
  · exact C2_payload_exclusive.2 [("k", .duration 5)] "hi"
      (by rw [show payloadProps [("k", Value.duration 5)] =
                [("k", GoAny.duration 5)] from rfl]; simp)
      rfl

/-- C4: the code path-escapes the name attribute twice — once in the
Name constructor and once more in Handler.name — so Name(my/log) under
project proj1 yields log name projects/proj1/logs/my%252Flog, not the
singly-escaped projects/proj1/logs/my%2Flog the spec states; the
empty-project half of the claim holds: with no project the log name is
always empty. -/
theorem C4_name_double_escape :
    goPathEscape "my/log" = "my%2Flog" ∧
    hName "proj1" [NameAttr "my/log"] = "projects/proj1/logs/my%252Flog" ∧
    hName "proj1" [NameAttr "my/log"] ≠ "projects/proj1/logs/my%2Flog" ∧
    handleM env0 hProj none recName = .ok entryName ∧
    entryName.logName = "projects/proj1/logs/my%252Flog" ∧
    (∀ attrs : List Attr, hName "" attrs = "") := by
  refine ⟨rfl, rfl, by decide, rfl, rfl, fun _ => rfl⟩

/-- A key is absent from the marshalled entry when every set call using
that key stores no value. -/
theorem not_mem_keys_of_slot (e : Entry) (k : String)
    (hall : ∀ p ∈ marshalFields e, p.1 = k → p.2 = none) :
    k ∉ keysOf (marshalEntry e) := by
  intro hmem
  rw [keysOf, marshalEntry, List.mem_map] at hmem
  obtain ⟨b, hb, hk⟩ := hmem
  rw [List.mem_filterMap] at hb
  obtain ⟨a, ha, hfa⟩ := hb
  rcases Option.map_eq_some'.mp hfa with ⟨j, hj, hbj⟩
  have hak : a.1 = k := by rw [← hbj] at hk; exact hk
  rw [hall a ha hak] at hj
  exact Option.noConfusion hj

/-- C5 counterexample: the entry every label-less Handle call produces —
allocated-but-empty labels map, nil timestamp pointer — serializes WITH
a labels key (an empty object) and WITH a timestamp key (the epoch),
although the claim requires both zero-valued fields to be omitted; its
absent HttpRequestInfo and OperationInfo are omitted as claimed. -/
theorem C5_serialization_counterexample :
    entryCx.labels = some [] ∧
    entryCx.timestamp = none ∧
    entryCx.httpRequest = none ∧
    entryCx.operation = none ∧
    "logging.googleapis.com/labels" ∈ keysOf (marshalEntry entryCx) ∧
    "timestamp" ∈ keysOf (marshalEntry entryCx) ∧
    "httpRequest" ∉ keysOf (marshalEntry entryCx) ∧
    "logging.googleapis.com/operation" ∉ keysOf (marshalEntry entryCx) := by
  refine ⟨rfl, rfl, rfl, rfl, by decide, by decide, by decide, by decide⟩

/-- C5 (amended): an entry with no HttpRequestInfo and no OperationInfo
serializes without an httpRequest or operation key; in general a set
call is omitted exactly when the value it receives is the Go zero value
of its runtime type — nil pointers (httpRequest, operation,
sourceLocation), empty strings (spanId, trace, insertId), a nil labels
MAP (an allocated empty map is emitted as an empty object), false
(trace_sampled), an absent payload, and the zero time.Time AFTER the
AsTime conversion (a nil timestamp pointer converts to the epoch and is
therefore emitted, not omitted). -/
theorem C5_zero_value_omission :
    ∀ e : Entry,
      (e.httpRequest = none → "httpRequest" ∉ keysOf (marshalEntry e)) ∧
      (e.operation = none →
        "logging.googleapis.com/operation" ∉ keysOf (marshalEntry e)) ∧
      (e.sourceLocation = none →
        "logging.googleapis.com/sourceLocation" ∉ keysOf (marshalEntry e)) ∧
      (e.labels = none →
        "logging.googleapis.com/labels" ∉ keysOf (marshalEntry e)) ∧
      (e.spanId = "" → "logging.googleapis.com/spanId" ∉ keysOf (marshalEntry e)) ∧
      (e.trace = "" → "logging.googleapis.com/trace" ∉ keysOf (marshalEntry e)) ∧
      (e.insertId = "" →
        "logging.googleapis.com/insertId" ∉ keysOf (marshalEntry e)) ∧
      (e.traceSampled = false →
        "logging.googleapis.com/trace_sampled" ∉ keysOf (marshalEntry e)) ∧
      (tsAsTime e.timestamp = {} → "timestamp" ∉ keysOf (marshalEntry e)) ∧
      (e.payload = none → "message" ∉ keysOf (marshalEntry e)) := by
  intro e
  refine ⟨?_, ?_, ?_, ?_, ?_, ?_, ?_, ?_, ?_, ?_⟩ <;>
    (intro hre
     apply not_mem_keys_of_slot
     intro p hp hk1
     simp only [marshalFields, List.mem_cons, List.mem_singleton,
       List.not_mem_nil, or_false] at hp
     rcases hp with rfl | rfl | rfl | rfl | rfl | rfl | rfl | rfl | rfl | rfl | rfl <;>
       first
         | (refine absurd hk1 ?_; simp; done)
         | simp [hre, strField, timeField, boolField, payloadField])

/-- C5 witness: an entry whose every zero-checked value is the Go zero
value (its timestamp is the proto encoding of the zero time) omits all
ten fields. -/
theorem C5_zero_value_omission_witness :
    "httpRequest" ∉ keysOf (marshalEntry entryW) ∧
    "logging.googleapis.com/operation" ∉ keysOf (marshalEntry entryW) ∧
    "logging.googleapis.com/sourceLocation" ∉ keysOf (marshalEntry entryW) ∧
    "logging.googleapis.com/labels" ∉ keysOf (marshalEntry entryW) ∧
    "logging.googleapis.com/spanId" ∉ keysOf (marshalEntry entryW) ∧
    "logging.googleapis.com/trace" ∉ keysOf (marshalEntry entryW) ∧
    "logging.googleapis.com/insertId" ∉ keysOf (marshalEntry entryW) ∧
    "logging.googleapis.com/trace_sampled" ∉ keysOf (marshalEntry entryW) ∧
    "timestamp" ∉ keysOf (marshalEntry entryW) ∧
    "message" ∉ keysOf (marshalEntry entryW) :=
  have h := C5_zero_value_omission entryW
  ⟨h.1 rfl, h.2.1 rfl, h.2.2.1 rfl, h.2.2.2.1 rfl, h.2.2.2.2.1 rfl,
   h.2.2.2.2.2.1 rfl, h.2.2.2.2.2.2.1 rfl, h.2.2.2.2.2.2.2.1 rfl,
   h.2.2.2.2.2.2.2.2.1 (by decide), h.2.2.2.2.2.2.2.2.2 rfl⟩

/-- C6: a request or response attribute whose value is not an
HttpRequest DOES crash Handle, contradicting the claim that malformed
reserved attributes are always silently skipped: a string-valued
response attribute alone, or together with a well-formed response after
a string-valued request attribute, drives the merge into a nil-pointer
dereference (request.Status = response.Status with a nil side); a
malformed operation attribute, by contrast, is skipped silently as
claimed. -/
theorem C6_malformed_reserved_crash :
    handleM env0 hBase none recBadResp = .panicked ∧
    handleM env0 hBase none recBadReqResp = .panicked ∧
    handleM env0 hBase none recBadOp = .ok entryBadOp ∧
    entryBadOp.operation = none :=
  ⟨rfl, rfl, rfl, rfl⟩

/-- C7: clone copies the baggage slice header without copying its
backing array, so WithAttrs appends in place whenever spare capacity
exists.  After three single-attribute derivations the slice has length 3
and capacity 4; a first child created with a fourth attribute reads its
own baggage correctly and the parent's observable baggage and fields are
untouched, but a second child derived from the same parent overwrites
the shared slot and silently changes the first child's baggage —
derivations from one parent interfere, contradicting the claim. -/
theorem C7_withattrs_shares_storage :
    step3.2.attr.len = 3 ∧ step3.2.attr.cap = 4 ∧
    readSlice child1.1 child1.2.attr = [attrA, attrB, attrC, attrD] ∧
    readSlice child2.1 step3.2.attr = [attrA, attrB, attrC] ∧
    child1.2.writer = step3.2.writer ∧
    child1.2.project = step3.2.project ∧
    child1.2.attr.arrId = step3.2.attr.arrId ∧
    child2.2.attr.arrId = step3.2.attr.arrId ∧
    readSlice child2.1 child1.2.attr = [attrA, attrB, attrC, attrE] ∧
    (readSlice child2.1 child1.2.attr).map Prod.fst ≠
      (readSlice child1.1 child1.2.attr).map Prod.fst := by
  refine ⟨rfl, rfl, rfl, rfl, rfl, rfl, rfl, rfl, rfl, by decide⟩

end Slogr
